import Mathlib

/-!
# Verification of the portfolio-tracker compute layer

Shallow embedding of `portfolio_logic.py` (BenPi4/portfolio-tracker).

Numbers are modelled as rationals (`ℚ`); a spreadsheet cell that may fail
Python's `float(...)` conversion is modelled as `Option ℚ` (`none` = the
conversion raises `ValueError`).  A Python function that can raise is
embedded as an `Option`-returning function (`none` = an exception
propagates out); a function that cannot raise is embedded as a total
function.  Dates enter the logic only through ordering and `min`, so they
are modelled as `Int`.
-/

namespace Portfolio

/-- Python's `str.strip()`: drop leading and trailing whitespace.  Defined on
the character list so the kernel can evaluate it. -/
def pyStrip (s : String) : String :=
  ⟨((s.data.dropWhile Char.isWhitespace).reverse.dropWhile
      Char.isWhitespace).reverse⟩

/-- Python's `str.upper()` (ASCII case mapping). -/
def pyUpper (s : String) : String :=
  ⟨s.data.map Char.toUpper⟩

/-!
Exact rational arithmetic, written via `Rat.divInt` so that both the
elaborator and the kernel can evaluate it (the Batteries definitions of
`Rat.add`, `Rat.sub`, `Rat.mul`, `Rat.inv` are `@[irreducible]`).  The
`_eq` lemmas identify each operation with the corresponding field
operation on `ℚ`; division by zero yields 0, as everywhere in Mathlib.
-/

def pyAdd (a b : ℚ) : ℚ := Rat.divInt (a.num * b.den + b.num * a.den) (a.den * b.den)

def pySub (a b : ℚ) : ℚ := Rat.divInt (a.num * b.den - b.num * a.den) (a.den * b.den)

def pyMul (a b : ℚ) : ℚ := Rat.divInt (a.num * b.num) (a.den * b.den)

def pyDiv (a b : ℚ) : ℚ := Rat.divInt (a.num * b.den) (a.den * b.num)

/-- One row of the transactions ledger: `{Date, Ticker, Type, Quantity, Price}`.
`quantity`/`price` are `none` when the cell does not parse as a float. -/
structure Row where
  date : Int
  ticker : String
  ttype : String
  quantity : Option ℚ
  price : Option ℚ
deriving Repr, DecidableEq

/-- The `try: price = float(...); quantity = float(...) except: price = 0.0;
quantity = 0.0` block of `calculate_cash_balance`: if either conversion
fails, both values degrade to `0.0`. -/
def parseNums (r : Row) : ℚ × ℚ :=
  match r.price, r.quantity with
  | some p, some q => (p, q)
  | _, _ => (0, 0)

/-- Function `calculate_cash_balance` (portfolio_logic.py lines 12-38): fold over the
ledger; `Deposit Cash` adds `price`, `Withdraw Cash` subtracts it, `Buy`
subtracts `quantity * price`, `Sell` adds it, anything else (including
`Initial`) leaves cash unchanged. -/
def calculate_cash_balance (txns : List Row) : ℚ :=
  txns.foldl (fun cash r =>
    let t := pyStrip r.ttype
    let pq := parseNums r
    if t = "Deposit Cash" then pyAdd cash pq.1
    else if t = "Withdraw Cash" then pySub cash pq.1
    else if t = "Buy" then pySub cash (pyMul pq.2 pq.1)
    else if t = "Sell" then pyAdd cash (pyMul pq.2 pq.1)
    else cash) 0

/-- The per-ticker accumulator `holdings[ticker]` of `get_current_holdings`. -/
structure HoldAcc where
  total_qty : ℚ
  total_cost : ℚ
  first_buy_date : Option Int
deriving Repr, DecidableEq

/-- One output row of `get_current_holdings`. -/
structure Holding where
  ticker : String
  qty : ℚ
  avg_buy_price : ℚ
  first_buy_date : Option Int
deriving Repr, DecidableEq

/-- Association-list update (Python `dict` keeps insertion order). -/
def updateAssoc (k : String) (v : HoldAcc) :
    List (String × HoldAcc) → List (String × HoldAcc)
  | [] => [(k, v)]
  | (k', v') :: rest =>
      if k' = k then (k, v) :: rest else (k', v') :: updateAssoc k v rest

/-- Association-list lookup. -/
def lookupAssoc (k : String) : List (String × HoldAcc) → Option HoldAcc
  | [] => none
  | (k', v') :: rest => if k' = k then some v' else lookupAssoc k rest

/-- The body of the `for _, row in stock_transactions.iterrows()` loop of
`get_current_holdings` (lines 51-88).  `float(row['Quantity'])` /
`float(row['Price'])` have no surrounding `try`, so an unparseable cell
aborts the whole computation (`none`). -/
def holdingsStep (h0 : List (String × HoldAcc)) (r : Row) :
    Option (List (String × HoldAcc)) :=
  let ticker := pyUpper (pyStrip r.ticker)
  let h := if (lookupAssoc ticker h0).isNone then
      h0 ++ [(ticker, ⟨0, 0, none⟩)] else h0
  match r.quantity, r.price with
  | some qty, some price =>
    let t := pyStrip r.ttype
    let acc := (lookupAssoc ticker h).getD ⟨0, 0, none⟩
    if t = "Buy" ∨ t = "Initial" then
      let newFirst :=
        match acc.first_buy_date with
        | none => some r.date
        | some d => some (min d r.date)
      some (updateAssoc ticker
        ⟨pyAdd acc.total_qty qty, pyAdd acc.total_cost (pyMul qty price),
         newFirst⟩ h)
    else if t = "Sell" then
      let newQty := pySub acc.total_qty qty
      if newQty > 0 then
        let avg_price := pyDiv acc.total_cost (pyAdd newQty qty)
        some (updateAssoc ticker
          ⟨newQty, pyMul newQty avg_price, acc.first_buy_date⟩ h)
      else
        some (updateAssoc ticker ⟨newQty, 0, acc.first_buy_date⟩ h)
    else
      some h
  | _, _ => none

/-- Emit one `Holding` per accumulated ticker whose net quantity exceeds
the `0.0001` epsilon (lines 90-100). -/
def holdingsOut (h : List (String × HoldAcc)) : List Holding :=
  h.filterMap (fun td =>
    if td.2.total_qty > Rat.divInt 1 10000 then
      some ⟨td.1, td.2.total_qty, pyDiv td.2.total_cost td.2.total_qty,
            td.2.first_buy_date⟩
    else none)

/-- Function `get_current_holdings` (lines 41-100): filter the ledger to rows whose
raw `Type` is exactly `Buy`, `Sell` or `Initial` (the `isin` filter uses
the unstripped value), fold `holdingsStep` over them, then emit the
holdings via `holdingsOut`. -/
def get_current_holdings (txns : List Row) : Option (List Holding) :=
  let stock := txns.filter (fun r =>
    r.ttype = "Buy" ∨ r.ttype = "Sell" ∨ r.ttype = "Initial")
  (stock.foldlM holdingsStep []).map holdingsOut

/-- Python's `str.lower()` (ASCII case mapping). -/
def pyLower (s : String) : String :=
  ⟨s.data.map Char.toLower⟩

/-- Python's `str.split(',')` on the character list (`"".split(',') = [""]`). -/
def splitCommaList : List Char → List (List Char)
  | [] => [[]]
  | c :: cs =>
    let rest := splitCommaList cs
    if c = ',' then [] :: rest
    else
      match rest with
      | [] => [[c]]
      | h :: t => (c :: h) :: t

/-- Python's `str.split(',')`. -/
def pySplitComma (s : String) : List String :=
  (splitCommaList s.data).map (fun l => ⟨l⟩)

/-- Model of `pandas.Series.round(2)` applied to one cell: round to two decimal
places (ties modelled as round-half-up, as in Mathlib's `round`). -/
def round2 (x : ℚ) : ℚ := Rat.divInt (round (x * 100)) 100

/-- One entry of the `fetch_live_prices` result:
`{price, prev_close, sector}` (lines 156-161). -/
structure Quote where
  price : ℚ
  prev_close : ℚ
  sector : String
deriving Repr, DecidableEq

/-- One row of the table built by `build_portfolio_table` (lines 238-262). -/
structure PortfolioRow where
  ticker : String
  qty : ℚ
  avg_buy_price : ℚ
  current_price : ℚ
  market_value : ℚ
  pct_of_portfolio : ℚ
  total_return_pct : ℚ
  daily_return_pct : ℚ
  alpha_vs_spy : ℚ
  sector : String
deriving Repr, DecidableEq

/-- The per-holding loop body of `build_portfolio_table` (lines 213-248).
`price_data` is the quote map (`price_data.get(ticker, default)` is modelled
by `Option.getD`); `spyRet` is an oracle for `calculate_spy_return`, which
performs network I/O (it returns 0 on any fetch failure, so it is total).
`pct_of_portfolio` is filled in afterwards, as in the source. -/
def buildRow (price_data : String → Option Quote) (spyRet : Int → ℚ)
    (row : Holding) : PortfolioRow :=
  let data := (price_data row.ticker).getD ⟨0, 0, "Unknown"⟩
  let curr := data.price
  let prev := data.prev_close
  let market_value := row.qty * curr
  let total_return_pct :=
    if row.avg_buy_price > 0 then
      (curr - row.avg_buy_price) / row.avg_buy_price * 100
    else 0
  let daily_return_pct := if prev > 0 then (curr - prev) / prev * 100 else 0
  let spy_ret :=
    match row.first_buy_date with
    | some d => spyRet d
    | none => 0
  ⟨row.ticker, row.qty, row.avg_buy_price, curr, market_value, 0,
   total_return_pct, daily_return_pct, total_return_pct - spy_ret,
   data.sector⟩

/-- Function `build_portfolio_table` (lines 208-263): build one `PortfolioRow` per
holding, then add the allocation column with denominator
`sum(market_value) + max(0, cash_balance)` — negative cash is excluded
("ignoring negative cash/margin", line 252); each percentage is rounded to
two decimals; when total assets are not positive all percentages are 0. -/
def build_portfolio_table (holdings_df : List Holding)
    (price_data : String → Option Quote) (spyRet : Int → ℚ)
    (cash_balance : ℚ) : List PortfolioRow :=
  let rows := holdings_df.map (buildRow price_data spyRet)
  match rows with
  | [] => []
  | _ =>
    let total_assets := (rows.map (fun r => r.market_value)).sum
        + max 0 cash_balance
    if total_assets > 0 then
      rows.map (fun r =>
        { r with pct_of_portfolio := round2 (r.market_value / total_assets * 100) })
    else
      rows.map (fun r => { r with pct_of_portfolio := 0 })

/-- One record of the `Alerts` sheet, headers
`[Ticker, Target Price, Direction, Subscribers, Status, Note, Last Checked]`
(line 483).  `target_price` is `none` when `float(row['Target Price'])`
raises (the loop then skips the row, line 546-549). -/
structure AlertRow where
  ticker : String
  target_price : Option ℚ
  direction : String
  subscribers : String
  status : String
  note : String
  last_checked : String
deriving Repr, DecidableEq

/-- One SMTP message as composed by `send_alert_email` (lines 503-513):
single message, all recipients on the `Bcc` header. -/
structure EmailMsg where
  sender : String
  bcc : List String
  ticker : String
  price : ℚ
  direction : String
deriving Repr, DecidableEq

/-- Model of `list(set([s.strip() for s in subscribers if '@' in s]))` (line 498):
keep entries containing `@`, strip them, deduplicate. -/
def recipientsOf (subscribers : List String) : List String :=
  ((subscribers.filter (fun s => s.data.contains '@')).map pyStrip).dedup

/-- Function `send_alert_email` (lines 486-517).  `sender_creds` is `none` when the
`user`/`password` entries are missing or empty (line 494); `smtpOk` is an
oracle for the external SMTP transaction (lines 509-517): the function
returns `(success, messages actually handed to SMTP)`. -/
def send_alert_email (ticker : String) (price : ℚ) (direction : String)
    (subscribers : List String) (sender_creds : Option (String × String))
    (smtpOk : Bool) : Bool × List EmailMsg :=
  match sender_creds with
  | none => (false, [])
  | some (sender_email, _) =>
    let recipients := recipientsOf subscribers
    if recipients = [] then (false, [])
    else (smtpOk, [⟨sender_email, recipients, ticker, price, direction⟩])

/-- The body of the `for i, row in df.iterrows()` loop of `process_alerts`
(lines 544-594), for a sheet with the standard headers (so both the
`Status` and `Last Checked` columns exist).  Returns the row as stored
after the iteration together with the SMTP messages attempted.
`prices` is the `fetch_live_prices` result (`.get(ticker, {}).get('price', 0)`
is modelled by `Option.getD 0`); `now` is the timestamp written to
`Last Checked`. -/
def processAlertRow (prices : String → Option ℚ)
    (creds : Option (String × String)) (smtpOk : Bool) (now : String)
    (row : AlertRow) : AlertRow × List EmailMsg :=
  match row.target_price with
  | none => (row, [])
  | some target =>
    if pyLower row.status = "sent" then (row, [])
    else
      let current_price := (prices row.ticker).getD 0
      if current_price = 0 then (row, [])
      else
        let hit :=
          (row.direction = "Above" ∧ current_price ≥ target) ∨
          (row.direction = "Below" ∧ current_price ≤ target)
        if hit then
          let subs_list := pySplitComma row.subscribers
          let res := send_alert_email row.ticker current_price row.direction
              subs_list creds smtpOk
          if res.1 then
            ({row with status := "Sent", last_checked := now}, res.2)
          else (row, res.2)
        else (row, [])

/-- Function `process_alerts` (lines 519-594) over an already-read sheet with the
standard headers: each row is processed independently by
`processAlertRow`; `smtpOk i` is the SMTP outcome for row `i`.  Returns
the rows as stored afterwards and all SMTP messages attempted. -/
def process_alerts (prices : String → Option ℚ)
    (creds : Option (String × String)) (smtpOk : Nat → Bool) (now : String)
    (rows : List AlertRow) : List AlertRow × List EmailMsg :=
  let results := ((List.range rows.length).zip rows).map
      (fun p => processAlertRow prices creds (smtpOk p.1) now p.2)
  (results.map Prod.fst, (results.map Prod.snd).flatten)

/-- The `Close`-price table produced by the bulk `yf.download` in
`calculate_historical_portfolio_value` (lines 318-356): trading dates in
index order, the set of ticker columns, and the cell contents
(`none` = `NaN`). -/
structure PriceTable where
  dates : List Int
  tickers : List String
  priceAt : String → Int → Option ℚ

/-- Price of ticker `t` on date `d` with the manual forward-fill of lines
389-402: on `NaN`, look at the last five index entries before `d`
(`.loc[:date].tail(6)[:-1]`), take the most recent non-`NaN`, else `0.0`. -/
def lookbackPrice (tbl : PriceTable) (t : String) (d : Int) : ℚ :=
  match tbl.priceAt t d with
  | some p => p
  | none =>
    let cands := ((tbl.dates.filter (fun e => e ≤ d)).dropLast.reverse.take 5)
    match cands.findSome? (tbl.priceAt t) with
    | some p => p
    | none => 0

/-- The benchmark value of lines 406-413: `0.0` when `SPY` has no column;
otherwise the cell value, falling back to the most recent non-`NaN` value
on or before `d`, and remaining `NaN` (`none`) when there is none. -/
def spyValue (tbl : PriceTable) (d : Int) : Option ℚ :=
  if "SPY" ∈ tbl.tickers then
    match tbl.priceAt "SPY" d with
    | some p => some p
    | none => (tbl.dates.filter (fun e => e ≤ d)).reverse.findSome?
        (tbl.priceAt "SPY")
  else some 0

/-- Stable insertion of a row into a date-sorted list (new row goes before
existing rows of strictly later date, after rows of the same date). -/
def insertByDate (r : Row) : List Row → List Row
  | [] => [r]
  | x :: xs => if x.date < r.date then x :: insertByDate r xs
               else r :: x :: xs

/-- Model of `transactions_df.sort_values('Date')` (line 363), modelled as a stable
sort by date. -/
def sortByDate : List Row → List Row
  | [] => []
  | x :: xs => insertByDate x (sortByDate xs)

/-- The day-by-day reconstruction loop of
`calculate_historical_portfolio_value` (lines 366-419): for each trading
date on/after `start_date`, truncate the ledger, recompute cash and
holdings, and value each holding that has a price column (holdings whose
ticker has no column contribute nothing); one record
`(date, portfolio_value, spy_value)` per processed date.  `none` when
`get_current_holdings` raises. -/
def historyRecords (tbl : PriceTable) (trans_sorted : List Row)
    (start_date : Int) : Option (List (Int × ℚ × Option ℚ)) :=
  tbl.dates.foldlM (fun recs date =>
    if date < start_date then some recs
    else
      let current_trans := trans_sorted.filter (fun r => r.date ≤ date)
      if current_trans = [] then some recs
      else
        let cash := calculate_cash_balance current_trans
        match get_current_holdings current_trans with
        | none => none
        | some holdings =>
          let pv := holdings.foldl (fun acc h =>
            if h.ticker ∈ tbl.tickers then
              pyAdd acc (pyMul h.qty (lookbackPrice tbl h.ticker date))
            else acc) cash
          some (recs ++ [(date, pv, spyValue tbl date)])) []

/-- One output row of `calculate_historical_portfolio_value`
(lines 415-441).  `spy_price`/`spy_return_pct` are `none` when the cell is
`NaN`. -/
structure HistPoint where
  date : Int
  portfolio_value : ℚ
  spy_price : Option ℚ
  portfolio_return_pct : ℚ
  spy_return_pct : Option ℚ
deriving Repr, DecidableEq

/-- Function `calculate_historical_portfolio_value` (lines 299-441).  `download` is
the outcome of the bulk `yf.download` plus the `Close`-extraction of lines
322-353: `none` models a raised exception or an unexpected data format
(every path there returns an empty frame).  Normalization (lines 427-439):
both series are rebased on the first record; a non-positive (or `NaN`)
initial value turns the whole series into constant 0. -/
def calculate_historical_portfolio_value (txns : List Row)
    (start_date : Int) (download : Option PriceTable) :
    Option (List HistPoint) :=
  match txns with
  | [] => some []
  | _ =>
    match download with
    | none => some []
    | some tbl =>
      if tbl.dates = [] then some []
      else
        match historyRecords tbl (sortByDate txns) start_date with
        | none => none
        | some [] => some []
        | some (rec0 :: rest) =>
          let initial_port := rec0.2.1
          let initial_spy := rec0.2.2
          some ((rec0 :: rest).map (fun rec =>
            { date := rec.1
              portfolio_value := rec.2.1
              spy_price := rec.2.2
              portfolio_return_pct :=
                if initial_port > 0 then
                  pyMul (pyDiv (pySub rec.2.1 initial_port) initial_port) 100
                else 0
              spy_return_pct :=
                match initial_spy with
                | some v =>
                  if v > 0 then
                    match rec.2.2 with
                    | some sp => some (pyMul (pyDiv (pySub sp v) v) 100)
                    | none => none
                  else some 0
                | none => some 0 }))



/-- Ledger for the C4 analysis: positions in `A` and `B`. -/
def c4Ledger : List Row :=
  [⟨0, "A", "Buy", some 1, some 2⟩, ⟨0, "B", "Buy", some 1, some 3⟩]

/-- Downloaded table for the C4 analysis: ticker `B` is held but has no
price column; `A` and `SPY` have valid prices. -/
def c4Table : PriceTable :=
  ⟨[0], ["A", "SPY"],
   fun t d => if t = "A" ∧ d = 0 then some 10
     else if t = "SPY" ∧ d = 0 then some 4 else none⟩

end Portfolio

namespace Portfolio

set_option maxRecDepth 8000

theorem pyAdd_eq (a b : ℚ) : pyAdd a b = a + b := by
  have ha : ((a.den : ℤ) : ℚ) ≠ 0 := by exact_mod_cast a.den_nz
  have hb : ((b.den : ℤ) : ℚ) ≠ 0 := by exact_mod_cast b.den_nz
  rw [pyAdd, Rat.divInt_eq_div]
  conv_rhs => rw [← Rat.num_div_den a, ← Rat.num_div_den b]
  push_cast
  field_simp
  try ring

theorem pySub_eq (a b : ℚ) : pySub a b = a - b := by
  have ha : ((a.den : ℤ) : ℚ) ≠ 0 := by exact_mod_cast a.den_nz
  have hb : ((b.den : ℤ) : ℚ) ≠ 0 := by exact_mod_cast b.den_nz
  rw [pySub, Rat.divInt_eq_div]
  conv_rhs => rw [← Rat.num_div_den a, ← Rat.num_div_den b]
  push_cast
  field_simp
  try ring

theorem pyMul_eq (a b : ℚ) : pyMul a b = a * b := by
  have ha : ((a.den : ℤ) : ℚ) ≠ 0 := by exact_mod_cast a.den_nz
  have hb : ((b.den : ℤ) : ℚ) ≠ 0 := by exact_mod_cast b.den_nz
  rw [pyMul, Rat.divInt_eq_div]
  conv_rhs => rw [← Rat.num_div_den a, ← Rat.num_div_den b]
  push_cast
  field_simp

theorem pyDiv_eq (a b : ℚ) : pyDiv a b = a / b := by
  conv_rhs => rw [← Rat.num_div_den a, ← Rat.num_div_den b]
  rw [div_div_eq_mul_div, div_mul_eq_mul_div, div_div]
  rw [pyDiv, Rat.divInt_eq_div]
  push_cast
  ring_nf

/-- C3: For a ledger `Buy(T, 10, $100)` followed by `Sell(T, 4, p2)`, for any
sale price `p2`, `get_current_holdings` yields `Holding(T, qty = 6,
avg_cost = $100)`; and in general a `Sell` of `s` shares against a position of
`q0` shares with cost basis `c0`, when `0 < q0 - s` shares remain, decrements
the quantity and rescales the cost basis proportionally to
`c0 * ((q0 - s) / q0)`, so the remaining average cost is unchanged. -/
theorem C3_partial_sell_preserves_avg_cost :
    (∀ (p2 : ℚ) (d1 d2 : Int),
      get_current_holdings
        [⟨d1, "T", "Buy", some 10, some 100⟩,
         ⟨d2, "T", "Sell", some 4, some p2⟩]
      = some [⟨"T", 6, 100, some d1⟩]) ∧
    (∀ (q0 c0 s ps : ℚ) (f : Option Int) (d : Int), 0 < q0 - s →
      holdingsStep [("T", ⟨q0, c0, f⟩)] ⟨d, "T", "Sell", some s, some ps⟩
      = some [("T", ⟨q0 - s, c0 * ((q0 - s) / q0), f⟩)]) := by
  constructor
  · intro p2 d1 d2
    simp +decide [get_current_holdings, holdingsStep, holdingsOut,
      lookupAssoc, updateAssoc]
  · intro q0 c0 s ps f d h
    simp +decide [holdingsStep, lookupAssoc, updateAssoc, pyAdd_eq, pySub_eq,
      pyMul_eq, pyDiv_eq, h, sub_add_cancel]
    ring

/-- C3 witness: the general sell-step rescaling at a concrete input. -/
theorem C3_partial_sell_preserves_avg_cost_witness :
    (0:ℚ) < 10 - 4 ∧
    holdingsStep [("T", ⟨10, 1000, some 1⟩)] ⟨2, "T", "Sell", some 4, some 999⟩
      = some [("T", ⟨10 - 4, 1000 * ((10 - 4) / 10), some 1⟩)] :=
  ⟨by simp +decide,
   C3_partial_sell_preserves_avg_cost.2 10 1000 4 999 (some 1) 2
     (by simp +decide)⟩

/-- C5: a ledger `Buy(T, 10, $100)` then `Buy(T, 10, $200)` yields
`Holding(T, qty = 20, avg_cost = $150)` (weighted-average cost basis,
first-buy date the earlier of the two); and in general a `Buy` of `q` shares
at price `p` accumulates quantity and total cost. -/
theorem C5_weighted_average_cost :
    (∀ (d1 d2 : Int),
      get_current_holdings
        [⟨d1, "T", "Buy", some 10, some 100⟩,
         ⟨d2, "T", "Buy", some 10, some 200⟩]
      = some [⟨"T", 20, 150, some (min d1 d2)⟩]) ∧
    (∀ (q0 c0 q p : ℚ) (f : Option Int) (d : Int),
      holdingsStep [("T", ⟨q0, c0, f⟩)] ⟨d, "T", "Buy", some q, some p⟩
      = some [("T", ⟨q0 + q, c0 + q * p,
          match f with
          | none => some d
          | some d0 => some (min d0 d)⟩)]) := by
  constructor
  · intro d1 d2
    simp +decide [get_current_holdings, holdingsStep, holdingsOut,
      lookupAssoc, updateAssoc]
  · intro q0 c0 q p f d
    simp +decide [holdingsStep, lookupAssoc, updateAssoc, pyAdd_eq, pyMul_eq]

/-- C6: every holding emitted by `get_current_holdings` has quantity above
the `0.0001` epsilon (in particular strictly positive); and a ledger holding
only `Buy(T, q, p)` followed by `Sell(T, q, p2)` with equal quantities
yields a holdings list with no entry for `T` at all. -/
theorem C6_holdings_quantity_positive :
    (∀ (txns : List Row) (hs : List Holding),
      get_current_holdings txns = some hs →
      ∀ x ∈ hs, 0 < x.qty ∧ Rat.divInt 1 10000 < x.qty) ∧
    (∀ (q p p2 : ℚ) (d1 d2 : Int),
      get_current_holdings
        [⟨d1, "T", "Buy", some q, some p⟩,
         ⟨d2, "T", "Sell", some q, some p2⟩]
      = some []) := by
  constructor
  · intro txns hs h x hx
    simp only [get_current_holdings] at h
    rcases Option.map_eq_some'.mp h with ⟨acc, -, rfl⟩
    simp only [holdingsOut] at hx
    rcases List.mem_filterMap.mp hx with ⟨td, -, htd⟩
    split at htd
    · rename_i hc
      cases htd
      exact ⟨lt_trans (by decide) hc, hc⟩
    · cases htd
  · intro q p p2 d1 d2
    simp +decide [get_current_holdings, holdingsStep, holdingsOut,
      lookupAssoc, updateAssoc, pyAdd_eq, pySub_eq, pyMul_eq]


/-- C6 witness: the emitted-holdings bound at a concrete ledger. -/
theorem C6_holdings_quantity_positive_witness :
    get_current_holdings [⟨1, "T", "Buy", some 10, some 100⟩]
      = some [⟨"T", 10, 100, some 1⟩] ∧
    (0 < (⟨"T", 10, 100, some 1⟩ : Holding).qty ∧
      Rat.divInt 1 10000 < (⟨"T", 10, 100, some 1⟩ : Holding).qty) :=
  ⟨by decide,
   C6_holdings_quantity_positive.1 [⟨1, "T", "Buy", some 10, some 100⟩]
     [⟨"T", 10, 100, some 1⟩] (by decide) ⟨"T", 10, 100, some 1⟩ (by decide)⟩

/-- C10: when a `Sell` drives the running quantity of `T` to zero or below
(`a ≤ s`), the accumulated cost is reset to 0 while the negative quantity is
retained; a subsequent `Buy(T, q, p)` therefore yields net quantity
`q - (s - a)` and, when that net exceeds the output epsilon, an average cost
of `q * p / (q - (s - a))` — strictly greater than `p` whenever the position
was strictly oversold (`a < s`) and `p > 0`. -/
theorem C10_oversell_cost_reset (a s q p0 ps p : ℚ) (d0 d1 d2 : Int)
    (h1 : a ≤ s) (h2 : Rat.divInt 1 10000 < q - (s - a)) :
    get_current_holdings
      [⟨d0, "T", "Buy", some a, some p0⟩,
       ⟨d1, "T", "Sell", some s, some ps⟩,
       ⟨d2, "T", "Buy", some q, some p⟩]
    = some [⟨"T", q - (s - a), q * p / (q - (s - a)), some (min d0 d2)⟩] ∧
    (a < s → 0 < p → p < q * p / (q - (s - a))) := by
  have h3 : ¬ s < a := not_lt.mpr h1
  have h2' : Rat.divInt 1 10000 < a - s + q := by linarith
  constructor
  · simp +decide [get_current_holdings, holdingsStep, holdingsOut,
      lookupAssoc, updateAssoc, pyAdd_eq, pySub_eq, pyMul_eq, pyDiv_eq,
      h3, h2', sub_pos]
    constructor
    · ring
    · ring_nf
  · intro hlt hp
    have hden : (0:ℚ) < q - (s - a) := lt_trans (by decide) h2
    rw [lt_div_iff₀ hden]
    nlinarith [mul_pos hp (sub_pos.mpr hlt)]


/-- C10 witness: oversell at a concrete ledger (hold 5, sell 8, buy 10). -/
theorem C10_oversell_cost_reset_witness :
    ((5:ℚ) ≤ 5 ∧ Rat.divInt 1 10000 < (10:ℚ) - (5 - 5)) ∧
    (get_current_holdings
       [⟨1, "T", "Buy", some 5, some 3⟩,
        ⟨2, "T", "Sell", some 5, some 4⟩,
        ⟨3, "T", "Buy", some 10, some 2⟩]
     = some [⟨"T", 10 - (5 - 5), 10 * 2 / (10 - (5 - 5)), some (min 1 3)⟩] ∧
     ((5:ℚ) < 5 → (0:ℚ) < 2 → (2:ℚ) < 10 * 2 / (10 - (5 - 5)))) :=
  ⟨⟨by decide, by simp +decide⟩,
   C10_oversell_cost_reset 5 5 10 3 4 2 1 2 3 (by decide) (by simp +decide)⟩

theorem parseNums_degraded {r : Row} (h : r.price = none ∨ r.quantity = none) :
    parseNums r = (0, 0) := by
  rcases h with h | h
  · simp [parseNums, h]
  · rw [parseNums, h]
    cases r.price <;> rfl

theorem holdingsStep_raises {h0 : List (String × HoldAcc)} {r : Row}
    (h : r.quantity = none ∨ r.price = none) :
    holdingsStep h0 r = none := by
  rcases h with h | h
  · rw [holdingsStep, h]
  · rw [holdingsStep, h]
    cases r.quantity <;> rfl

theorem foldlM_holdingsStep_none {l : List Row} {r : Row} (hr : r ∈ l)
    (hbad : r.quantity = none ∨ r.price = none) :
    ∀ init, l.foldlM holdingsStep init = none := by
  induction l with
  | nil => cases hr
  | cons a l ih =>
    intro init
    rcases List.mem_cons.mp hr with rfl | hmem
    · simp [List.foldlM_cons, holdingsStep_raises hbad]
    · cases ha : holdingsStep init a with
      | none => simp [List.foldlM_cons, ha]
      | some b => simp [List.foldlM_cons, ha, ih hmem]

/-- C1 counterexample: a `Buy` row whose `Quantity` does not parse makes
`get_current_holdings` raise (modelled as `none`), contradicting the claim
that neither fold function ever raises on such a row. -/
theorem C1_counterexample :
    get_current_holdings [⟨1, "A", "Buy", none, some 5⟩] = none := by decide

/-- C1 (amended): function `calculate_cash_balance` tolerates malformed numeric
fields — a row whose `Price` or `Quantity` does not parse behaves exactly
like one with both coerced to `0.0`, and the fold continues; but
`get_current_holdings` raises (computes no result) whenever any
`Buy`/`Sell`/`Initial` row has an unparseable `Price` or `Quantity`. -/
theorem C1_amended_error_tolerance :
    (∀ (pre post : List Row) (r : Row), r.price = none ∨ r.quantity = none →
      calculate_cash_balance (pre ++ r :: post)
      = calculate_cash_balance
          (pre ++ {r with price := some 0, quantity := some 0} :: post)) ∧
    (∀ (txns : List Row) (r : Row), r ∈ txns →
      (r.ttype = "Buy" ∨ r.ttype = "Sell" ∨ r.ttype = "Initial") →
      r.quantity = none ∨ r.price = none →
      get_current_holdings txns = none) := by
  constructor
  · intro pre post r h
    rw [calculate_cash_balance, calculate_cash_balance,
      List.foldl_append, List.foldl_append, List.foldl_cons, List.foldl_cons]
    congr 1
    simp only []
    rw [parseNums_degraded h,
      show parseNums {r with price := some 0, quantity := some 0} = (0, 0)
        from rfl]
  · intro txns r hr ht hbad
    simp only [get_current_holdings]
    have hmem : r ∈ txns.filter (fun r =>
        r.ttype = "Buy" ∨ r.ttype = "Sell" ∨ r.ttype = "Initial") := by
      rw [List.mem_filter]
      exact ⟨hr, by simpa using ht⟩
    rw [foldlM_holdingsStep_none hmem hbad]
    rfl

/-- C1 witness: the amended claim at a concrete malformed row. -/
theorem C1_amended_error_tolerance_witness :
    ((⟨1, "A", "Buy", none, some 5⟩ : Row).quantity = none) ∧
    calculate_cash_balance [⟨1, "A", "Buy", none, some 5⟩]
      = calculate_cash_balance [⟨1, "A", "Buy", some 0, some 0⟩] ∧
    get_current_holdings [⟨1, "A", "Buy", none, some 5⟩] = none := by
  refine ⟨rfl, ?_, ?_⟩
  · have h := C1_amended_error_tolerance.1 [] []
      ⟨1, "A", "Buy", none, some 5⟩ (Or.inr rfl)
    simpa using h
  · exact C1_amended_error_tolerance.2 _ ⟨1, "A", "Buy", none, some 5⟩
      (by simp) (Or.inl rfl) (Or.inl rfl)


/-- C9: the alert loop treats a fetched price of 0 as unavailable: such a row
is skipped before the hit comparison, so it is never considered hit, no email
is attempted, and the stored row (status, `Last Checked`) is unchanged — even
for a `direction = Below` alert whose target the comparison `0 ≤ target`
would satisfy. -/
theorem C9_zero_price_skipped (prices : String → Option ℚ)
    (creds : Option (String × String)) (smtpOk : Bool) (now : String)
    (row : AlertRow) (h : (prices row.ticker).getD 0 = 0) :
    processAlertRow prices creds smtpOk now row = (row, []) := by
  cases ht : row.target_price
  · simp [processAlertRow, ht]
  · simp [processAlertRow, ht, h]

/-- C9 witness: a zero quote on a `Below` alert with positive target. -/
theorem C9_zero_price_skipped_witness :
    ((((fun _ => some 0) : String → Option ℚ) "MSFT").getD 0 = (0:ℚ)) ∧
    processAlertRow (fun _ => some 0) (some ("u@x", "pw")) true "2024-01-01"
        ⟨"MSFT", some 400, "Below", "a@b.com", "Active", "", "Never"⟩
      = (⟨"MSFT", some 400, "Below", "a@b.com", "Active", "", "Never"⟩, []) :=
  ⟨rfl,
   C9_zero_price_skipped (fun _ => some 0) (some ("u@x", "pw")) true
     "2024-01-01" ⟨"MSFT", some 400, "Below", "a@b.com", "Active", "", "Never"⟩
     rfl⟩

/-- C2: an alert already in `Sent` status is skipped (no email, no change of
status or `Last Checked`); an `Active` alert that is hit, given sender
credentials and at least one valid subscriber address, leads to exactly one
SMTP message whose `Bcc` list is the deduplicated subscriber set; only when
the send succeeds does the stored row change to `Sent` with `Last Checked`
updated — on failure the row is unchanged (still `Active`). -/
theorem C2_alert_state_machine (prices : String → Option ℚ)
    (creds : Option (String × String)) (smtpOk : Bool) (now : String) :
    (∀ row : AlertRow, pyLower row.status = "sent" →
      processAlertRow prices creds smtpOk now row = (row, [])) ∧
    (∀ (row : AlertRow) (u pw : String) (t : ℚ),
      row.status = "Active" → row.target_price = some t →
      creds = some (u, pw) →
      (prices row.ticker).getD 0 ≠ 0 →
      ((row.direction = "Above" ∧ (prices row.ticker).getD 0 ≥ t) ∨
       (row.direction = "Below" ∧ (prices row.ticker).getD 0 ≤ t)) →
      recipientsOf (pySplitComma row.subscribers) ≠ [] →
      (processAlertRow prices creds smtpOk now row).2
        = [⟨u, recipientsOf (pySplitComma row.subscribers), row.ticker,
            (prices row.ticker).getD 0, row.direction⟩] ∧
      (recipientsOf (pySplitComma row.subscribers)).Nodup ∧
      (smtpOk = true →
        (processAlertRow prices creds smtpOk now row).1
          = {row with status := "Sent", last_checked := now}) ∧
      (smtpOk = false →
        (processAlertRow prices creds smtpOk now row).1 = row)) := by
  constructor
  · intro row hs
    cases ht : row.target_price
    · simp [processAlertRow, ht]
    · simp [processAlertRow, ht, hs]
  · intro row u pw t hst ht hc hp hhit hrec
    subst hc
    have hsent : ¬ pyLower row.status = "sent" := by rw [hst]; decide
    simp only [processAlertRow, ht, if_neg hsent, if_neg hp, if_pos hhit,
      send_alert_email, if_neg hrec]
    cases smtpOk <;>
      simp [List.nodup_dedup, recipientsOf]


/-- C2 witness: a hit `Active` alert with duplicate subscribers and a
successful send, at concrete inputs. -/
theorem C2_alert_state_machine_witness :
    (410:ℚ) ≥ 400 ∧
    recipientsOf (pySplitComma "a@b.com,c@d.com,a@b.com") ≠ [] ∧
    ((processAlertRow (fun _ => some 410) (some ("u@x", "pw")) true "ts"
        ⟨"MSFT", some 400, "Above", "a@b.com,c@d.com,a@b.com", "Active", "",
         "Never"⟩).2
      = [⟨"u@x", recipientsOf (pySplitComma "a@b.com,c@d.com,a@b.com"),
          "MSFT", (some (410:ℚ)).getD 0, "Above"⟩] ∧
     (recipientsOf (pySplitComma "a@b.com,c@d.com,a@b.com")).Nodup ∧
     (true = true →
       (processAlertRow (fun _ => some 410) (some ("u@x", "pw")) true "ts"
          ⟨"MSFT", some 400, "Above", "a@b.com,c@d.com,a@b.com", "Active", "",
           "Never"⟩).1
       = ⟨"MSFT", some 400, "Above", "a@b.com,c@d.com,a@b.com", "Sent", "",
          "ts"⟩) ∧
     (true = false →
       (processAlertRow (fun _ => some 410) (some ("u@x", "pw")) true "ts"
          ⟨"MSFT", some 400, "Above", "a@b.com,c@d.com,a@b.com", "Active", "",
           "Never"⟩).1
       = ⟨"MSFT", some 400, "Above", "a@b.com,c@d.com,a@b.com", "Active", "",
          "Never"⟩)) :=
  ⟨by decide, by decide,
   (C2_alert_state_machine (fun _ => some 410) (some ("u@x", "pw")) true
      "ts").2
     ⟨"MSFT", some 400, "Above", "a@b.com,c@d.com,a@b.com", "Active", "",
      "Never"⟩
     "u@x" "pw" 400 rfl rfl rfl (by decide) (Or.inl ⟨rfl, by decide⟩)
     (by decide)⟩


/-- C7: for every non-empty historical replay output, the first point has
portfolio return percentage exactly 0 and benchmark (SPY) return percentage
exactly 0 — both series are rebased on the first record of the window. -/
theorem C7_first_point_rebased_to_zero (txns : List Row) (s : Int)
    (download : Option PriceTable) (p0 : HistPoint) (rest : List HistPoint)
    (h : calculate_historical_portfolio_value txns s download
      = some (p0 :: rest)) :
    p0.portfolio_return_pct = 0 ∧ p0.spy_return_pct = some 0 := by
  cases txns with
  | nil => simp [calculate_historical_portfolio_value] at h
  | cons r txns' =>
    cases download with
    | none => simp [calculate_historical_portfolio_value] at h
    | some tbl =>
      simp only [calculate_historical_portfolio_value] at h
      by_cases hd : tbl.dates = []
      · rw [if_pos hd] at h
        simp at h
      · rw [if_neg hd] at h
        cases hrec : historyRecords tbl (sortByDate (r :: txns')) s with
        | none => rw [hrec] at h; cases h
        | some recs =>
          cases recs with
          | nil => rw [hrec] at h; simp at h
          | cons rec0 rs =>
            rw [hrec] at h
            simp only [List.map_cons, Option.some.injEq, List.cons.injEq] at h
            obtain ⟨h0, -⟩ := h
            rw [← h0]
            constructor
            · by_cases hp : rec0.2.1 > 0
              · simp [hp, pySub_eq, pyDiv_eq, pyMul_eq]
              · simp [hp]
            · cases hspy : rec0.2.2 with
              | none => simp [hspy]
              | some v =>
                by_cases hv : v > 0
                · simp [hspy, hv, pySub_eq, pyDiv_eq, pyMul_eq]
                · simp [hspy, hv]

/-- C7 witness: a one-day replay with one holding and a valid SPY series. -/
theorem C7_first_point_rebased_to_zero_witness :
    calculate_historical_portfolio_value [⟨0, "A", "Buy", some 1, some 2⟩] 0
        (some ⟨[0], ["A", "SPY"],
          fun t d => if t = "A" ∧ d = 0 then some 3
            else if t = "SPY" ∧ d = 0 then some 4 else none⟩)
      = some [⟨0, 1, some 4, 0, some 0⟩] ∧
    (⟨0, 1, some 4, 0, some 0⟩ : HistPoint).portfolio_return_pct = 0 ∧
    (⟨0, 1, some 4, 0, some 0⟩ : HistPoint).spy_return_pct = some 0 :=
  ⟨by decide,
   C7_first_point_rebased_to_zero [⟨0, "A", "Buy", some 1, some 2⟩] 0
     (some ⟨[0], ["A", "SPY"],
       fun t d => if t = "A" ∧ d = 0 then some 3
         else if t = "SPY" ∧ d = 0 then some 4 else none⟩)
     ⟨0, 1, some 4, 0, some 0⟩ [] (by decide)⟩


/-- C4 counterexample: `B` is held during the replay window and its price
series is absent from the successfully downloaded table, yet the replay
returns a non-empty window: the single day is valued with `A` priced at 10
and `B` silently priced at 0 (portfolio value `5 = -5 cash + 1 * 10 + 0`) —
a partially-populated series, contradicting "the historical replay returns
an entirely empty result for the whole window". -/
theorem C4_counterexample :
    "B" ∈ c4Ledger.map Row.ticker ∧
    "B" ∉ c4Table.tickers ∧
    get_current_holdings c4Ledger
      = some [⟨"A", 1, 2, some 0⟩, ⟨"B", 1, 3, some 0⟩] ∧
    calculate_historical_portfolio_value c4Ledger 0 (some c4Table)
      = some [⟨0, 5, some 4, 0, some 0⟩] ∧
    calculate_historical_portfolio_value c4Ledger 0 (some c4Table)
      ≠ some [] := by
  decide

/-- C4 (amended): the replay returns an entirely empty window when the bulk
download itself fails (raises, or yields data without a usable `Close`
level — `download = none`) or when the downloaded table has no rows; a
missing individual ticker series does not empty the window (see the
counterexample: such holdings are valued at 0). -/
theorem C4_amended_empty_only_on_download_failure (txns : List Row)
    (s : Int) :
    calculate_historical_portfolio_value txns s none = some [] ∧
    (∀ tbl : PriceTable, tbl.dates = [] →
      calculate_historical_portfolio_value txns s (some tbl) = some []) := by
  constructor
  · cases txns <;> simp [calculate_historical_portfolio_value]
  · intro tbl hd
    cases txns <;> simp [calculate_historical_portfolio_value, hd]

/-- C4 witness: the amended claim at concrete inputs. -/
theorem C4_amended_witness :
    calculate_historical_portfolio_value c4Ledger 0 none = some [] ∧
    (⟨[], ["A"], fun _ _ => none⟩ : PriceTable).dates = [] ∧
    calculate_historical_portfolio_value c4Ledger 0
        (some ⟨[], ["A"], fun _ _ => none⟩) = some [] :=
  ⟨(C4_amended_empty_only_on_download_failure c4Ledger 0).1, rfl,
   (C4_amended_empty_only_on_download_failure c4Ledger 0).2
     ⟨[], ["A"], fun _ _ => none⟩ rfl⟩


theorem round2_le (x : ℚ) : round2 x ≤ x + 1 / 200 := by
  rw [round2, Rat.divInt_eq_div]
  have h : ((round (x * 100) : ℤ) : ℚ) ≤ x * 100 + 1 / 2 := by
    have habs := abs_sub_round (x * 100)
    rw [abs_le] at habs
    linarith [habs.1]
  rw [div_le_iff₀ (by norm_num : (0:ℚ) < ((100:ℤ):ℚ))]
  push_cast at h ⊢
  linarith

theorem sum_round2_le (l : List ℚ) :
    (l.map round2).sum ≤ l.sum + l.length * (1 / 200) := by
  induction l with
  | nil => simp
  | cons a l ih =>
    simp only [List.map_cons, List.sum_cons, List.length_cons]
    have h := round2_le a
    push_cast
    linarith

theorem sum_div_mul_le (M : List ℚ) (T : ℚ) (hT : 0 < T) (hle : M.sum ≤ T) :
    (M.map (fun m => m / T * 100)).sum ≤ 100 := by
  have h1 : (M.map (fun m => m / T * 100)) = M.map (fun m => m * (100 / T)) := by
    apply List.map_congr_left
    intro m _
    rw [div_mul_eq_mul_div, mul_div_assoc]
  rw [h1]
  have h2 : (M.map (fun m => m * (100 / T))).sum = M.sum * (100 / T) := by
    have := List.sum_map_mul_right M id (100 / T)
    simpa using this
  rw [h2]
  have h3 : M.sum * (100 / T) ≤ T * (100 / T) :=
    mul_le_mul_of_nonneg_right hle (by positivity)
  calc M.sum * (100 / T) ≤ T * (100 / T) := h3
    _ = 100 := by
        field_simp

/-- C8: each allocation percentage uses the denominator
`sum(market_value) + max(0, cash)` (negative cash excluded), so for every
portfolio with non-negative cash the percentages sum to at most 100 up to
the per-row rounding epsilon of `1/200` (half of the last kept decimal). -/
theorem C8_allocation_pct_sum_bounded (holdings : List Holding)
    (price_data : String → Option Quote) (spyRet : Int → ℚ) (cash : ℚ)
    (hcash : 0 ≤ cash) :
    ((build_portfolio_table holdings price_data spyRet cash).map
        (fun r => r.pct_of_portfolio)).sum
      ≤ 100 + ((build_portfolio_table holdings price_data spyRet cash).length
          : ℚ) * (1 / 200) := by
  rw [build_portfolio_table]
  rcases hrows : holdings.map (buildRow price_data spyRet) with - | ⟨r0, rs⟩
  · simp
  · simp only []
    set rows := r0 :: rs with hrdef
    set T := (rows.map (fun r => r.market_value)).sum + max 0 cash with hT
    by_cases hTpos : T > 0
    · rw [if_pos hTpos]
      rw [List.map_map, List.length_map]
      have hcomp :
          ((fun r : PortfolioRow => r.pct_of_portfolio) ∘
            (fun r : PortfolioRow =>
              { r with pct_of_portfolio := round2 (r.market_value / T * 100) }))
          = fun r : PortfolioRow => round2 (r.market_value / T * 100) := rfl
      rw [hcomp]
      have hmain :
          (rows.map (fun r => round2 (r.market_value / T * 100))).sum
            ≤ ((rows.map (fun r => r.market_value / T * 100)).sum)
              + rows.length * (1 / 200) := by
        have := sum_round2_le (rows.map (fun r => r.market_value / T * 100))
        simpa [List.map_map, Function.comp] using this
      have hsum :
          ((rows.map (fun r => r.market_value / T * 100)).sum) ≤ 100 := by
        have hle : (rows.map (fun r => r.market_value)).sum ≤ T := by
          rw [hT]
          exact le_add_of_nonneg_right (le_max_left 0 cash)
        have := sum_div_mul_le (rows.map (fun r => r.market_value)) T hTpos hle
        simpa [List.map_map, Function.comp] using this
      calc (rows.map (fun r => round2 (r.market_value / T * 100))).sum
          ≤ ((rows.map (fun r => r.market_value / T * 100)).sum)
              + rows.length * (1 / 200) := hmain
        _ ≤ 100 + rows.length * (1 / 200) := by linarith
    · rw [if_neg hTpos]
      rw [List.map_map, List.length_map]
      have hcomp :
          ((fun r : PortfolioRow => r.pct_of_portfolio) ∘
            (fun r : PortfolioRow => { r with pct_of_portfolio := (0:ℚ) }))
          = fun _ : PortfolioRow => (0:ℚ) := rfl
      rw [hcomp]
      have hz : (rows.map (fun _ : PortfolioRow => (0:ℚ))).sum = 0 := by
        simp
      rw [hz]
      have : (0:ℚ) ≤ (rows.length : ℚ) * (1 / 200) := by positivity
      linarith

/-- C8 witness: the bound at a concrete one-holding portfolio with positive
cash. -/
theorem C8_allocation_pct_sum_bounded_witness :
    (0:ℚ) ≤ 5 ∧
    ((build_portfolio_table [⟨"A", 1, 1, none⟩]
        (fun _ => some ⟨3, 1, "Tech"⟩) (fun _ => 0) 5).map
        (fun r => r.pct_of_portfolio)).sum
      ≤ 100 + ((build_portfolio_table [⟨"A", 1, 1, none⟩]
          (fun _ => some ⟨3, 1, "Tech"⟩) (fun _ => 0) 5).length : ℚ)
          * (1 / 200) :=
  ⟨by decide,
   C8_allocation_pct_sum_bounded [⟨"A", 1, 1, none⟩]
     (fun _ => some ⟨3, 1, "Tech"⟩) (fun _ => 0) 5 (by decide)⟩

end Portfolio
